import Mathlib

/-!
Verification development for the football match-report extraction pipeline
(`src/core/models.py` and `src/scrapping/data_getters.py`).

The Python data model and the extraction operations are shallowly embedded as
executable Lean definitions.  Stateful Python code (objects mutated in place)
becomes explicit state passing; code that can raise (`IndexError`,
`AttributeError`, `TypeError`, `ValueError`) returns `Except String`.
Attribute access through `@property` getters is modelled by cell references,
because the source's away-side getters return the home-side storage
(`models.py` lines 94-124).
-/

namespace FootballData

/-- A Python value stored in one cell of a `Features` ledger: the source
appends integer counters, strings and lists of strings. -/
inductive PyVal where
  | nat (n : Nat)
  | str (s : String)
  | strs (l : List String)
deriving DecidableEq, Repr

/-- Python truthiness test (`not value`) for the values that occur in the
ledger: `0`, the empty string and the empty list are falsy. -/
def PyVal.falsy : PyVal → Bool
  | .nat n => n == 0
  | .str s => s.isEmpty
  | .strs l => l.isEmpty

/-- One row of a parsed HTML table. -/
abbrev Row := List String

/-- A parsed rectangular table (`pd.read_html` output element). -/
abbrev Table := List Row

/-- `Features` (models.py lines 26-41): a pair of parallel lists, `data`
holding the values and `columns` the names. -/
structure Features (α : Type) where
  data : List α
  columns : List String
deriving DecidableEq, Repr

/-- Python `list.index`: position of the FIRST occurrence of `x`, `none`
when absent (Python raises `ValueError`). -/
def listIndex : List String → String → Option Nat
  | [], _ => none
  | a :: t, x => if a == x then some 0 else (listIndex t x).map (fun i => i + 1)

/-- `Features.__getitem__` (models.py lines 31-33):
`self.data[self.columns.index(name)]`.  `none` models the `ValueError` /
`IndexError` raised on a missing name or a short `data` list. -/
def Features.getItem (f : Features α) (name : String) : Option α :=
  match listIndex f.columns name with
  | none => none
  | some i => f.data[i]?

/-- `Features.add_features` (models.py lines 35-37): wholesale replacement of
both lists. -/
def Features.add_features (_f : Features α) (values : List α) (names : List String) :
    Features α :=
  ⟨values, names⟩

/-- `Features.append_feature` (models.py lines 39-41): appends one value and
one name at the end of the parallel lists. -/
def Features.append_feature (f : Features α) (value : α) (name : String) :
    Features α :=
  ⟨f.data ++ [value], f.columns ++ [name]⟩

theorem listIndex_append_first (l r : List String) (x : String) (h : x ∉ l) :
    listIndex (l ++ x :: r) x = some l.length := by
  induction l with
  | nil => simp [listIndex]
  | cons a t ih =>
    have h1 : x ≠ a := by intro hh; exact h (by simp [hh])
    have h2 : x ∉ t := fun hh => h (List.mem_cons_of_mem _ hh)
    have hax : (a == x) = false := beq_eq_false_iff_ne.mpr (fun hh => h1 hh.symm)
    show (if a == x then some 0 else (listIndex (t ++ x :: r) x).map (fun i => i + 1))
        = some (a :: t).length
    rw [hax]
    simp [ih h2]

theorem getElem?_append_cons (l r : List α) (v : α) :
    (l ++ v :: r)[l.length]? = some v := by
  induction l with
  | nil => simp
  | cons a t ih => simpa using ih

/-- C10 counterexample: appending the value `1` and then the value `2` under
the same name `"x"` and looking `"x"` up returns the FIRST-appended value `1`,
not the last-appended value `2` (Python `list.index` finds the first
occurrence), so the claim "looking the name up returns the last-appended
value" is false on the code. -/
theorem features_lookup_last_cex :
    ((((⟨[], []⟩ : Features PyVal).append_feature (.nat 1) "x").append_feature
        (.nat 2) "x").getItem "x" = some (.nat 1)) ∧
    PyVal.nat 1 ≠ PyVal.nat 2 := by
  constructor
  · rfl
  · decide

/-- C10 (amended): every append adds a new `(name, value)` entry at the end of
the ledger, in insertion order, without overwriting earlier entries; for a
name appended more than once, lookup returns the FIRST-appended value for that
name (Python `list.index` returns the first occurrence). -/
theorem features_append_lookup_spec (f : Features α) (v w : α) (name : String)
    (hfresh : name ∉ f.columns) (hlen : f.data.length = f.columns.length) :
    (f.append_feature v name).columns = f.columns ++ [name] ∧
    (f.append_feature v name).data = f.data ++ [v] ∧
    ((f.append_feature v name).append_feature w name).getItem name = some v := by
  refine ⟨rfl, rfl, ?_⟩
  have hcols : ((f.append_feature v name).append_feature w name).columns
      = f.columns ++ name :: [name] := by
    simp [Features.append_feature]
  have hdata : ((f.append_feature v name).append_feature w name).data
      = f.data ++ v :: [w] := by
    simp [Features.append_feature]
  unfold Features.getItem
  rw [hcols, hdata, listIndex_append_first f.columns [name] name hfresh, ← hlen]
  exact getElem?_append_cons f.data [w] v

/-- C10 witness: the amended lookup and append behaviour evaluated on a fresh
ledger with two appends of the name `"x"`. -/
theorem features_append_lookup_spec_witness :
    ("x" ∉ ([] : List String)) ∧
    ((⟨[], []⟩ : Features PyVal).data.length =
      (⟨[], []⟩ : Features PyVal).columns.length) ∧
    (((⟨[], []⟩ : Features PyVal).append_feature (.nat 7) "x").columns = [] ++ ["x"] ∧
     ((⟨[], []⟩ : Features PyVal).append_feature (.nat 7) "x").data = [] ++ [.nat 7] ∧
     ((((⟨[], []⟩ : Features PyVal).append_feature (.nat 7) "x").append_feature
        (.nat 9) "x").getItem "x" = some (.nat 7))) :=
  ⟨by decide, rfl,
    features_append_lookup_spec (⟨[], []⟩ : Features PyVal) (.nat 7) (.nat 9) "x"
      (by decide) rfl⟩

/-- `MatchEvents` (models.py lines 10-14) during `_prepare_events`: the four
parallel per-event lists.  Before the final flatten, `player_names` (like
`player_links`) holds one list of player strings per raw node. -/
structure MatchEvents where
  event_types : List String
  player_names : List (List String)
  player_links : List (List String)
  minutes : List String
deriving DecidableEq, Repr

/-- One raw event node, reduced to the three pieces the extractor reads from
the HTML (data_getters.py lines 230-256): the `event_icon` type token, the
`(text, href)` pair of every anchor, and the visible text before the first
minute delimiter. -/
structure RawEventNode where
  kind : String
  players : List (String × String)
  minuteText : String
deriving DecidableEq, Repr

/-- `EventsGetter._split_two_players` (data_getters.py lines 220-228) applied
to one of the nested list fields: keep only the first player at `idx` and
append a singleton holding the second player. -/
def splitTwoPlayers (l : List (List String)) (idx : Nat) : List (List String) :=
  let second := (l.getD idx []).getD 1 ""
  (l.set idx ((l.getD idx []).take 1)) ++ [[second]]

/-- The body of the loop in `EventsGetter._get_event_second_player`
(data_getters.py lines 208-218): when the node at `idx` carries more than one
player, split names and links, duplicate the minute and append the synthetic
event type. -/
def splitStep (new : String) (e : MatchEvents) (idx : Nat) : MatchEvents :=
  if 1 < (e.player_names.getD idx []).length then
    { event_types := e.event_types ++ [new],
      player_names := splitTwoPlayers e.player_names idx,
      player_links := splitTwoPlayers e.player_links idx,
      minutes := e.minutes ++ [e.minutes.getD idx ""] }
  else e

/-- `EventsGetter._get_event_second_player` (data_getters.py lines 190-218):
`np.where(np.array(event_types) == basic)` yields the ascending list of
indices classified as `basic`; the loop then runs `splitStep` on each. -/
def getEventSecondPlayer (e : MatchEvents) (basic new : String) : MatchEvents :=
  ((List.range e.event_types.length).filter
      (fun i => e.event_types.getD i "" == basic)).foldl (splitStep new) e

/-- The set of indices that actually split: classified as `basic` AND carrying
more than one collected player (a specification-side definition used to state
what `getEventSecondPlayer` does). -/
def splitSet (e : MatchEvents) (basic : String) : List Nat :=
  (List.range e.event_types.length).filter
    (fun i => e.event_types.getD i "" == basic
      && decide (1 < (e.player_names.getD i []).length))

/-- Specification-side: truncate the entries of `l` at every index of `u` to
their first element. -/
def truncAt (l : List (List String)) (u : List Nat) : List (List String) :=
  (List.range l.length).map
    (fun i => if i ∈ u then (l.getD i []).take 1 else l.getD i [])

/-- Specification-side: the detached second players of the entries of `l` at
the indices of `u`, each as a singleton list, in the order of `u`. -/
def secondsAt (l : List (List String)) (u : List Nat) : List (List String) :=
  u.map (fun i => [(l.getD i []).getD 1 ""])

/-- Specification-side description of one whole split pass over the indices of
`u`: every primary entry keeps only its first player, and for every split
index one synthetic event (kind `new`, second player, same minute) is appended
at the end, in index order. -/
def applySplits (e : MatchEvents) (new : String) (u : List Nat) : MatchEvents :=
  { event_types := e.event_types ++ u.map (fun _ => new),
    player_names := truncAt e.player_names u ++ secondsAt e.player_names u,
    player_links := truncAt e.player_links u ++ secondsAt e.player_links u,
    minutes := e.minutes ++ u.map (fun i => e.minutes.getD i "") }

theorem truncAt_length (l : List (List String)) (u : List Nat) :
    (truncAt l u).length = l.length := by
  simp [truncAt]

theorem map_getD_range (l : List α) (d : α) :
    (List.range l.length).map (fun i => l.getD i d) = l := by
  induction l with
  | nil => rfl
  | cons a t ih =>
    have hcomp : ((fun i => (a :: t).getD i d) ∘ Nat.succ) = fun i => t.getD i d := by
      funext i
      simp [List.getD_cons_succ]
    rw [List.length_cons, List.range_succ_eq_map, List.map_cons, List.map_map,
      hcomp, ih, List.getD_cons_zero]

theorem truncAt_nil (l : List (List String)) : truncAt l [] = l := by
  simp only [truncAt, List.not_mem_nil, if_false]
  exact map_getD_range l []

theorem applySplits_nil (e : MatchEvents) (new : String) :
    applySplits e new [] = e := by
  simp [applySplits, truncAt_nil, secondsAt]

theorem getD_map_range (n i : Nat) (f : Nat → α) (d : α) (h : i < n) :
    ((List.range n).map f).getD i d = f i := by
  rw [List.getD_eq_getElem?_getD, List.getElem?_map, List.getElem?_range h]
  rfl

theorem getD_append_left (l r : List α) (i : Nat) (d : α) (h : i < l.length) :
    (l ++ r).getD i d = l.getD i d := by
  rw [List.getD_eq_getElem?_getD, List.getD_eq_getElem?_getD,
    List.getElem?_append_left h]

theorem getD_truncAt (l : List (List String)) (u : List Nat) (i : Nat)
    (h : i < l.length) :
    (truncAt l u).getD i [] =
      (if i ∈ u then (l.getD i []).take 1 else l.getD i []) := by
  unfold truncAt
  exact getD_map_range l.length i _ [] h

theorem set_map_range (n idx : Nat) (f : Nat → α) (v : α) :
    ((List.range n).map f).set idx v =
      (List.range n).map (fun i => if i = idx then v else f i) := by
  apply List.ext_getElem?
  intro i
  by_cases hi : i < n
  · by_cases hidx : i = idx
    · subst hidx
      rw [List.getElem?_set_self (by simpa using hi), List.getElem?_map,
        List.getElem?_range hi]
      simp
    · rw [List.getElem?_set_ne (fun hh => hidx hh.symm)]
      simp only [List.getElem?_map, List.getElem?_range hi]
      simp [hidx]
  · have hge : n ≤ i := Nat.le_of_not_lt hi
    rw [List.getElem?_eq_none (by simpa using hge),
      List.getElem?_eq_none (by simpa using hge)]

theorem set_append_of_lt (l r : List α) (i : Nat) (v : α) (h : i < l.length) :
    (l ++ r).set i v = l.set i v ++ r := by
  induction l generalizing i with
  | nil => cases h
  | cons a t ih =>
    cases i with
    | zero => rfl
    | succ j =>
      show a :: (t ++ r).set j v = a :: (t.set j v ++ r)
      rw [ih j (Nat.lt_of_succ_lt_succ h)]

theorem getD_trunc_seconds (l : List (List String)) (u : List Nat) (idx : Nat)
    (h : idx < l.length) (hnotu : idx ∉ u) :
    (truncAt l u ++ secondsAt l u).getD idx [] = l.getD idx [] := by
  rw [getD_append_left _ _ _ _ (by rw [truncAt_length]; exact h)]
  rw [getD_truncAt _ _ _ h]
  simp [hnotu]

theorem splitTwoPlayers_trunc_seconds (l : List (List String)) (u : List Nat)
    (idx : Nat) (h : idx < l.length) (hnotu : idx ∉ u) :
    splitTwoPlayers (truncAt l u ++ secondsAt l u) idx =
      truncAt l (u ++ [idx]) ++ secondsAt l (u ++ [idx]) := by
  unfold splitTwoPlayers
  rw [getD_trunc_seconds l u idx h hnotu]
  rw [set_append_of_lt _ _ _ _ (by rw [truncAt_length]; exact h)]
  rw [List.append_assoc]
  congr 1
  · unfold truncAt
    rw [set_map_range]
    congr 1
    funext i
    by_cases hi : i = idx
    · subst hi
      simp
    · simp [hi, List.mem_append]
  · unfold secondsAt
    rw [List.map_append]
    rfl

theorem splitStep_applySplits (e : MatchEvents) (new : String) (u : List Nat)
    (idx : Nat)
    (hn : e.player_names.length = e.event_types.length)
    (hl : e.player_links.length = e.event_types.length)
    (hm : e.minutes.length = e.event_types.length)
    (hidx : idx < e.event_types.length)
    (hnotu : idx ∉ u) :
    splitStep new (applySplits e new u) idx =
      applySplits e new
        (u ++ (if 1 < (e.player_names.getD idx []).length then [idx] else [])) := by
  have hgn : (applySplits e new u).player_names.getD idx [] =
      e.player_names.getD idx [] :=
    getD_trunc_seconds e.player_names u idx (by rw [hn]; exact hidx) hnotu
  unfold splitStep
  rw [hgn]
  by_cases hc : 1 < (e.player_names.getD idx []).length
  · rw [if_pos hc, if_pos hc]
    show (MatchEvents.mk
        ((applySplits e new u).event_types ++ [new])
        (splitTwoPlayers (applySplits e new u).player_names idx)
        (splitTwoPlayers (applySplits e new u).player_links idx)
        ((applySplits e new u).minutes ++ [(applySplits e new u).minutes.getD idx ""]))
      = applySplits e new (u ++ [idx])
    unfold applySplits
    congr 1
    · rw [List.map_append, ← List.append_assoc]
      rfl
    · exact splitTwoPlayers_trunc_seconds e.player_names u idx
        (by rw [hn]; exact hidx) hnotu
    · exact splitTwoPlayers_trunc_seconds e.player_links u idx
        (by rw [hl]; exact hidx) hnotu
    · rw [getD_append_left _ _ _ _ (by rw [hm]; exact hidx)]
      rw [List.map_append, ← List.append_assoc]
      rfl
  · rw [if_neg hc, if_neg hc, List.append_nil]

theorem foldl_splitStep_spec (e : MatchEvents) (new : String)
    (hn : e.player_names.length = e.event_types.length)
    (hl : e.player_links.length = e.event_types.length)
    (hm : e.minutes.length = e.event_types.length) :
    ∀ (is u : List Nat),
      (∀ i ∈ is, i < e.event_types.length) →
      (∀ i ∈ is, i ∉ u) →
      is.Nodup →
      is.foldl (splitStep new) (applySplits e new u) =
        applySplits e new
          (u ++ is.filter (fun i => decide (1 < (e.player_names.getD i []).length)))
  | [], u, _, _, _ => by simp
  | idx :: rest, u, hlt, hdis, hnd => by
    rw [List.foldl_cons]
    rw [splitStep_applySplits e new u idx hn hl hm
      (hlt idx (List.mem_cons_self _ _)) (hdis idx (List.mem_cons_self _ _))]
    rw [foldl_splitStep_spec e new hn hl hm rest _
      (fun i hi => hlt i (List.mem_cons_of_mem _ hi))
      (fun i hi => by
        intro hmem
        rcases List.mem_append.mp hmem with hu | hone
        · exact hdis i (List.mem_cons_of_mem _ hi) hu
        · have hhead : ∀ a ∈ rest, idx ≠ a := (List.pairwise_cons.mp hnd).1
          have hieq : i = idx := by
            by_cases hc : 1 < (e.player_names.getD idx []).length
            · rw [if_pos hc] at hone
              simpa using hone
            · rw [if_neg hc] at hone
              simp at hone
          exact hhead i hi hieq.symm)
      (List.Nodup.of_cons hnd)]
    congr 1
    rw [List.append_assoc]
    congr 1
    by_cases hc : 1 < (e.player_names.getD idx []).length
    · rw [if_pos hc, List.filter_cons_of_pos (by simpa using hc)]
      rfl
    · rw [if_neg hc, List.filter_cons_of_neg (by simpa using hc)]
      rfl

theorem getEventSecondPlayer_eq_applySplits (e : MatchEvents)
    (basic new : String)
    (hn : e.player_names.length = e.event_types.length)
    (hl : e.player_links.length = e.event_types.length)
    (hm : e.minutes.length = e.event_types.length) :
    getEventSecondPlayer e basic new = applySplits e new (splitSet e basic) := by
  unfold getEventSecondPlayer
  have h0 := foldl_splitStep_spec e new hn hl hm
    ((List.range e.event_types.length).filter
      (fun i => e.event_types.getD i "" == basic)) []
    (fun i hi => List.mem_range.mp (List.mem_of_mem_filter hi))
    (fun i _ => List.not_mem_nil i)
    (List.Nodup.filter _ (List.nodup_range _))
  rw [applySplits_nil] at h0
  rw [h0, List.nil_append]
  congr 1
  rw [List.filter_filter]
  unfold splitSet
  congr 1
  funext a
  rw [Bool.and_comm]

/-- C1: `_get_event_second_player` splits exactly the nodes classified as
`basic` that carry two (or more) collected players: each such node keeps only
its first (name, link) pair, and exactly one synthetic event of kind `new`
carrying the second pair and the same minute token is appended, in index
order; nodes with exactly one pair (the split set membership requires more
than one) produce no synthetic event and are untouched.  Instantiated at
`basic = "goal", new = "assist"` and at `basic = "substitute_in",
new = "substitute_out"` this is the claimed split transform.  The hypotheses
state that the four per-event lists are parallel, which holds by construction
in `_prepare_events` (all four are comprehensions over the same node list). -/
theorem getEventSecondPlayer_split_spec (e : MatchEvents) (basic new : String)
    (hn : e.player_names.length = e.event_types.length)
    (hl : e.player_links.length = e.event_types.length)
    (hm : e.minutes.length = e.event_types.length) :
    getEventSecondPlayer e basic new = applySplits e new (splitSet e basic) :=
  getEventSecondPlayer_eq_applySplits e basic new hn hl hm

/-- Concrete input for the C1 witness: one two-player goal node, one
one-player card node, one one-player goal node. -/
def c1Sample : MatchEvents :=
  { event_types := ["goal", "yellow_card", "goal"],
    player_names := [["Alice", "Bob"], ["Carl"], ["Dan"]],
    player_links := [["a", "b"], ["c"], ["d"]],
    minutes := ["10", "20", "30+2"] }

/-- C1 witness: the split characterization applied at a concrete event group,
with the alignment hypotheses discharged by evaluation. -/
theorem getEventSecondPlayer_split_spec_witness :
    (c1Sample.player_names.length = c1Sample.event_types.length) ∧
    (c1Sample.player_links.length = c1Sample.event_types.length) ∧
    (c1Sample.minutes.length = c1Sample.event_types.length) ∧
    getEventSecondPlayer c1Sample "goal" "assist"
      = applySplits c1Sample "assist" (splitSet c1Sample "goal") :=
  ⟨rfl, rfl, rfl, getEventSecondPlayer_split_spec c1Sample "goal" "assist" rfl rfl rfl⟩

/-- The initial `MatchEvents` state built by `_prepare_events`
(data_getters.py lines 173-176): the four comprehensions over the same raw
node list. -/
def baseEvents (nodes : List RawEventNode) : MatchEvents :=
  { event_types := nodes.map (fun nd => nd.kind),
    player_names := nodes.map (fun nd => nd.players.map (fun p => p.1)),
    player_links := nodes.map (fun nd => nd.players.map (fun p => p.2)),
    minutes := nodes.map (fun nd => nd.minuteText) }

/-- `_prepare_events` up to (and including) the two split passes
(data_getters.py lines 178-186): substitutions first, goals second. -/
def prepareEventsCore (nodes : List RawEventNode) : MatchEvents :=
  getEventSecondPlayer
    (getEventSecondPlayer (baseEvents nodes) "substitute_in" "substitute_out")
    "goal" "assist"

/-- The final state of the `MatchEvents` object after `_prepare_events`
(data_getters.py line 188): `player_names` is flattened with
`itertools.chain`, the other three lists keep their shape. -/
structure PreparedEvents where
  event_types : List String
  player_names : List String
  player_links : List (List String)
  minutes : List String
deriving DecidableEq, Repr

/-- `EventsGetter._prepare_events` (data_getters.py lines 156-188) as a state
transformer on the events object of one side. -/
def prepareEvents (nodes : List RawEventNode) : PreparedEvents :=
  { event_types := (prepareEventsCore nodes).event_types,
    player_names := (prepareEventsCore nodes).player_names.flatten,
    player_links := (prepareEventsCore nodes).player_links,
    minutes := (prepareEventsCore nodes).minutes }

/-- C3 counterexample: a single raw node with a recognized kind and an empty
player list.  After `_prepare_events` the event-kind list has one entry but
the flattened player-name list is empty (the `itertools.chain` flatten drops
the empty per-node list instead of keeping an absent-player slot), so the
per-event lists do NOT stay aligned index-for-index with equal length. -/
theorem prepareEvents_empty_players_cex :
    (prepareEvents [⟨"yellow_card", [], "10"⟩]).event_types.length = 1 ∧
    (prepareEvents [⟨"yellow_card", [], "10"⟩]).player_names.length = 0 := by
  constructor
  · rfl
  · rfl

/-- The four per-event lists of a `MatchEvents` state are parallel. -/
def alignedEvents (e : MatchEvents) : Prop :=
  e.player_names.length = e.event_types.length ∧
  e.player_links.length = e.event_types.length ∧
  e.minutes.length = e.event_types.length

theorem baseEvents_aligned (nodes : List RawEventNode) :
    alignedEvents (baseEvents nodes) := by
  refine ⟨?_, ?_, ?_⟩ <;> simp [baseEvents]

theorem applySplits_aligned (e : MatchEvents) (new : String) (u : List Nat)
    (ha : alignedEvents e) : alignedEvents (applySplits e new u) := by
  obtain ⟨h1, h2, h3⟩ := ha
  refine ⟨?_, ?_, ?_⟩ <;>
    simp [applySplits, truncAt_length, secondsAt, h1, h2, h3]

theorem getD_append_right (l r : List α) (i : Nat) (d : α) (h : l.length ≤ i) :
    (l ++ r).getD i d = r.getD (i - l.length) d := by
  rw [List.getD_eq_getElem?_getD, List.getD_eq_getElem?_getD,
    List.getElem?_append_right h]

theorem getD_default_of_le (l : List α) (i : Nat) (d : α) (h : l.length ≤ i) :
    l.getD i d = d := by
  rw [List.getD_eq_getElem?_getD, List.getElem?_eq_none h]
  rfl

theorem mem_splitSet (e : MatchEvents) (basic : String) (i : Nat) :
    i ∈ splitSet e basic ↔
      i < e.event_types.length ∧ e.event_types.getD i "" = basic ∧
        1 < (e.player_names.getD i []).length := by
  unfold splitSet
  simp [List.mem_filter, List.mem_range, and_assoc]

theorem getD_trunc_seconds_lt (l : List (List String)) (u : List Nat) (i : Nat)
    (hi : i < l.length) :
    (truncAt l u ++ secondsAt l u).getD i [] =
      if i ∈ u then (l.getD i []).take 1 else l.getD i [] := by
  rw [getD_append_left _ _ _ _ (by rw [truncAt_length]; exact hi)]
  exact getD_truncAt l u i hi

theorem getD_trunc_seconds_ge (l : List (List String)) (u : List Nat) (i : Nat)
    (hge : l.length ≤ i) :
    (truncAt l u ++ secondsAt l u).getD i [] =
      (secondsAt l u).getD (i - l.length) [] := by
  rw [getD_append_right _ _ _ _ (by rw [truncAt_length]; exact hge), truncAt_length]

theorem getD_map_lt (f : α → β) (l : List α) (i : Nat) (d : β)
    (h : i < l.length) :
    (l.map f).getD i d = f (l.get ⟨i, h⟩) := by
  rw [List.getD_eq_getElem _ _ (by simpa using h)]
  simp

theorem secondsAt_getD_length (l : List (List String)) (u : List Nat) (j : Nat)
    (h : j < u.length) :
    ((secondsAt l u).getD j []).length = 1 := by
  unfold secondsAt
  rw [getD_map_lt _ u j [] h]
  rfl

/-- Entry lengths of the name lists after both split passes: under the
well-formedness hypothesis every per-node name list of `prepareEventsCore`
has exactly one entry. -/
theorem prepareEventsCore_names_entries (nodes : List RawEventNode)
    (h : ∀ nd ∈ nodes, nd.players.length = 1 ∨
      (nd.players.length = 2 ∧ (nd.kind = "goal" ∨ nd.kind = "substitute_in"))) :
    ∀ x ∈ (prepareEventsCore nodes).player_names, x.length = 1 := by
  have ha0 := baseEvents_aligned nodes
  have hc1 := getEventSecondPlayer_eq_applySplits (baseEvents nodes)
    "substitute_in" "substitute_out" ha0.1 ha0.2.1 ha0.2.2
  set e0 := baseEvents nodes with he0
  set u1 := splitSet e0 "substitute_in" with hu1
  set e1 := applySplits e0 "substitute_out" u1 with he1
  have ha1 : alignedEvents e1 := applySplits_aligned e0 _ u1 ha0
  have hc2 := getEventSecondPlayer_eq_applySplits e1 "goal" "assist"
    ha1.1 ha1.2.1 ha1.2.2
  set u2 := splitSet e1 "goal" with hu2
  have hcore : prepareEventsCore nodes = applySplits e1 "assist" u2 := by
    unfold prepareEventsCore
    rw [← he0, hc1]
    exact hc2
  rw [hcore]
  have hn0 : e0.player_names.length = nodes.length := by simp [he0, baseEvents]
  have ht0 : e0.event_types.length = nodes.length := by simp [he0, baseEvents]
  have hn1 : e1.player_names.length = nodes.length + u1.length := by
    rw [he1]
    show (truncAt e0.player_names u1 ++ secondsAt e0.player_names u1).length = _
    simp [truncAt_length, secondsAt, hn0]
  -- every entry of e1.player_names that escapes both split sets has length 1
  have key : ∀ i, i < e1.player_names.length → i ∉ u2 →
      (e1.player_names.getD i []).length = 1 := by
    intro i hilt hiu2
    by_cases hin : i < nodes.length
    · have hi0 : i < e0.player_names.length := by rw [hn0]; exact hin
      have hstep : e1.player_names.getD i [] =
          if i ∈ u1 then (e0.player_names.getD i []).take 1
          else e0.player_names.getD i [] := by
        rw [he1]
        exact getD_trunc_seconds_lt e0.player_names u1 i hi0
      by_cases hiu1 : i ∈ u1
      · have h2 := ((mem_splitSet e0 "substitute_in" i).mp hiu1).2.2
        rw [hstep, if_pos hiu1, List.length_take]
        exact Nat.min_eq_left (Nat.le_of_lt h2)
      · rw [hstep, if_neg hiu1]
        have hbase : e0.player_names.getD i [] =
            (nodes.get ⟨i, hin⟩).players.map (fun p => p.1) := by
          rw [he0]
          show ((nodes.map (fun nd => nd.players.map (fun p => p.1))).getD i [])
            = _
          exact getD_map_lt _ nodes i [] hin
        have htype : e0.event_types.getD i "" = (nodes.get ⟨i, hin⟩).kind := by
          rw [he0]
          show ((nodes.map (fun nd => nd.kind)).getD i "") = _
          exact getD_map_lt _ nodes i "" hin
        rcases h (nodes.get ⟨i, hin⟩) (List.get_mem nodes i hin) with h1 | ⟨h2, hk⟩
        · rw [hbase, List.length_map]
          exact h1
        · exfalso
          rcases hk with hg | hs
          · -- a two-player goal node not in u2 is impossible
            apply hiu2
            rw [hu2]
            refine (mem_splitSet e1 "goal" i).mpr ⟨?_, ?_, ?_⟩
            · have : e1.event_types.length = e0.event_types.length + u1.length := by
                rw [he1]
                simp [applySplits]
              rw [this, ht0]
              exact Nat.lt_of_lt_of_le hin (Nat.le_add_right _ _)
            · have : e1.event_types.getD i "" = e0.event_types.getD i "" := by
                rw [he1]
                show (e0.event_types ++ _).getD i "" = _
                exact getD_append_left _ _ _ _ (by rw [ht0]; exact hin)
              rw [this, htype, hg]
            · rw [hstep, if_neg hiu1, hbase, List.length_map, h2]
              exact Nat.one_lt_two
          · -- a two-player substitute_in node not in u1 is impossible
            apply hiu1
            rw [hu1]
            refine (mem_splitSet e0 "substitute_in" i).mpr ⟨?_, ?_, ?_⟩
            · rw [ht0]; exact hin
            · rw [htype, hs]
            · rw [hbase, List.length_map, h2]
              exact Nat.one_lt_two
    · have hge : nodes.length ≤ i := Nat.le_of_not_lt hin
      have hgetd : e1.player_names.getD i [] =
          (secondsAt e0.player_names u1).getD (i - nodes.length) [] := by
        rw [he1]
        have := getD_trunc_seconds_ge e0.player_names u1 i (by rw [hn0]; exact hge)
        rw [hn0] at this
        exact this
      rw [hgetd]
      apply secondsAt_getD_length
      have : i < nodes.length + u1.length := by rw [← hn1]; exact hilt
      omega
  -- now split membership in the final list
  intro x hx
  have hx2 : x ∈ truncAt e1.player_names u2 ++ secondsAt e1.player_names u2 := hx
  rcases List.mem_append.mp hx2 with hxl | hxr
  · rcases List.mem_map.mp hxl with ⟨i, hir, hxeq⟩
    have hilt : i < e1.player_names.length := List.mem_range.mp hir
    by_cases hiu2 : i ∈ u2
    · have h2 := ((mem_splitSet e1 "goal" i).mp hiu2).2.2
      rw [← hxeq, if_pos hiu2, List.length_take]
      exact Nat.min_eq_left (Nat.le_of_lt h2)
    · rw [← hxeq, if_neg hiu2]
      exact key i hilt hiu2
  · rcases List.mem_map.mp hxr with ⟨i, _, hxeq⟩
    rw [← hxeq]
    rfl

theorem trunc_seconds_links_names (e : MatchEvents) (new : String) (u : List Nat)
    (hlen : e.player_links.length = e.player_names.length)
    (hpt : ∀ i, (e.player_links.getD i []).length =
      (e.player_names.getD i []).length) :
    (applySplits e new u).player_links.length =
        (applySplits e new u).player_names.length ∧
      ∀ i, ((applySplits e new u).player_links.getD i []).length =
        ((applySplits e new u).player_names.getD i []).length := by
  constructor
  · show (truncAt e.player_links u ++ secondsAt e.player_links u).length =
      (truncAt e.player_names u ++ secondsAt e.player_names u).length
    simp [truncAt_length, secondsAt, hlen]
  · intro i
    by_cases h1 : i < e.player_names.length
    · have h2 : i < e.player_links.length := by rw [hlen]; exact h1
      have ha : (applySplits e new u).player_names.getD i [] =
          if i ∈ u then (e.player_names.getD i []).take 1
          else e.player_names.getD i [] :=
        getD_trunc_seconds_lt _ _ _ h1
      have hb : (applySplits e new u).player_links.getD i [] =
          if i ∈ u then (e.player_links.getD i []).take 1
          else e.player_links.getD i [] :=
        getD_trunc_seconds_lt _ _ _ h2
      rw [ha, hb]
      by_cases hu : i ∈ u
      · rw [if_pos hu, if_pos hu, List.length_take, List.length_take, hpt i]
      · rw [if_neg hu, if_neg hu]
        exact hpt i
    · have hge1 : e.player_names.length ≤ i := Nat.le_of_not_lt h1
      have hge2 : e.player_links.length ≤ i := by rw [hlen]; exact hge1
      have ha : (applySplits e new u).player_names.getD i [] =
          (secondsAt e.player_names u).getD (i - e.player_names.length) [] :=
        getD_trunc_seconds_ge _ _ _ hge1
      have hb : (applySplits e new u).player_links.getD i [] =
          (secondsAt e.player_links u).getD (i - e.player_links.length) [] :=
        getD_trunc_seconds_ge _ _ _ hge2
      rw [ha, hb, hlen]
      by_cases hj : i - e.player_names.length < u.length
      · rw [secondsAt_getD_length _ _ _ hj, secondsAt_getD_length _ _ _ hj]
      · have hge : u.length ≤ i - e.player_names.length := Nat.le_of_not_lt hj
        rw [getD_default_of_le _ _ _ (by simpa [secondsAt] using hge),
          getD_default_of_le _ _ _ (by simpa [secondsAt] using hge)]

theorem links_entry_length (e : MatchEvents)
    (hlen : e.player_links.length = e.player_names.length)
    (hpt : ∀ i, (e.player_links.getD i []).length =
      (e.player_names.getD i []).length)
    (hnm : ∀ x ∈ e.player_names, x.length = 1) :
    ∀ x ∈ e.player_links, x.length = 1 := by
  intro x hx
  rcases List.mem_iff_getElem.mp hx with ⟨i, hi, rfl⟩
  rw [← List.getD_eq_getElem e.player_links [] hi, hpt i]
  have hin : i < e.player_names.length := by rw [← hlen]; exact hi
  have hmem : e.player_names.getD i [] ∈ e.player_names := by
    rw [List.getD_eq_getElem _ _ hin]
    exact List.getElem_mem hin
  exact hnm _ hmem

theorem prepareEventsCore_eq (nodes : List RawEventNode) :
    prepareEventsCore nodes =
      applySplits
        (applySplits (baseEvents nodes) "substitute_out"
          (splitSet (baseEvents nodes) "substitute_in"))
        "assist"
        (splitSet
          (applySplits (baseEvents nodes) "substitute_out"
            (splitSet (baseEvents nodes) "substitute_in")) "goal") := by
  have ha0 := baseEvents_aligned nodes
  have hc1 := getEventSecondPlayer_eq_applySplits (baseEvents nodes)
    "substitute_in" "substitute_out" ha0.1 ha0.2.1 ha0.2.2
  have ha1 := applySplits_aligned (baseEvents nodes) "substitute_out"
    (splitSet (baseEvents nodes) "substitute_in") ha0
  have hc2 := getEventSecondPlayer_eq_applySplits
    (applySplits (baseEvents nodes) "substitute_out"
      (splitSet (baseEvents nodes) "substitute_in")) "goal" "assist"
    ha1.1 ha1.2.1 ha1.2.2
  unfold prepareEventsCore
  rw [hc1, hc2]

theorem prepareEventsCore_aligned (nodes : List RawEventNode) :
    alignedEvents (prepareEventsCore nodes) := by
  rw [prepareEventsCore_eq]
  exact applySplits_aligned _ _ _
    (applySplits_aligned _ _ _ (baseEvents_aligned nodes))

theorem prepareEventsCore_links_names (nodes : List RawEventNode) :
    (prepareEventsCore nodes).player_links.length =
        (prepareEventsCore nodes).player_names.length ∧
      ∀ i, ((prepareEventsCore nodes).player_links.getD i []).length =
        ((prepareEventsCore nodes).player_names.getD i []).length := by
  rw [prepareEventsCore_eq]
  have hl0 : (baseEvents nodes).player_links.length = nodes.length := by
    simp [baseEvents]
  have hn0 : (baseEvents nodes).player_names.length = nodes.length := by
    simp [baseEvents]
  have hlen0 : (baseEvents nodes).player_links.length =
      (baseEvents nodes).player_names.length := by rw [hl0, hn0]
  have hpt0 : ∀ i, ((baseEvents nodes).player_links.getD i []).length =
      ((baseEvents nodes).player_names.getD i []).length := by
    intro i
    by_cases hi : i < nodes.length
    · show ((nodes.map (fun nd => nd.players.map (fun p => p.2))).getD i []).length
        = ((nodes.map (fun nd => nd.players.map (fun p => p.1))).getD i []).length
      rw [getD_map_lt _ nodes i [] hi, getD_map_lt _ nodes i [] hi]
      simp
    · have hge : nodes.length ≤ i := Nat.le_of_not_lt hi
      rw [getD_default_of_le _ _ _ (by rw [hl0]; exact hge),
        getD_default_of_le _ _ _ (by rw [hn0]; exact hge)]
  have h1 := trunc_seconds_links_names (baseEvents nodes) "substitute_out"
    (splitSet (baseEvents nodes) "substitute_in") hlen0 hpt0
  exact trunc_seconds_links_names _ "assist" _ h1.1 h1.2

theorem flatten_length_of_singletons (l : List (List String))
    (h : ∀ x ∈ l, x.length = 1) : l.flatten.length = l.length := by
  induction l with
  | nil => rfl
  | cons a t ih =>
    rw [List.flatten_cons, List.length_append, List.length_cons,
      ih (fun x hx => h x (List.mem_cons_of_mem a hx)),
      h a (List.mem_cons_self a t)]
    omega

/-- C3 (amended): after extraction every `goal`/`substitute_in` node carrying
two players has been split so that each remaining event carries exactly one
player link; and WHEN every raw node carries exactly one player, or exactly
two players on a `goal`/`substitute_in` node, the event-kind, flattened
player-name, player-link and minute lists all have equal length (the original
claim's unconditional alignment fails: `itertools.chain` drops a node's empty
player list, see the counterexample, so alignment only holds under this
well-formedness condition). -/
theorem prepareEvents_wellformed_spec (nodes : List RawEventNode)
    (h : ∀ nd ∈ nodes, nd.players.length = 1 ∨
      (nd.players.length = 2 ∧ (nd.kind = "goal" ∨ nd.kind = "substitute_in"))) :
    (prepareEvents nodes).player_names.length =
        (prepareEvents nodes).event_types.length ∧
      (prepareEvents nodes).minutes.length =
        (prepareEvents nodes).event_types.length ∧
      (prepareEvents nodes).player_links.length =
        (prepareEvents nodes).event_types.length ∧
      ∀ pl ∈ (prepareEvents nodes).player_links, pl.length = 1 := by
  have hal := prepareEventsCore_aligned nodes
  have hnm := prepareEventsCore_names_entries nodes h
  have hln := prepareEventsCore_links_names nodes
  have hlk : ∀ x ∈ (prepareEventsCore nodes).player_links, x.length = 1 :=
    links_entry_length _ hln.1 hln.2 hnm
  refine ⟨?_, ?_, ?_, ?_⟩
  · show ((prepareEventsCore nodes).player_names.flatten).length =
      (prepareEventsCore nodes).event_types.length
    rw [flatten_length_of_singletons _ hnm]
    exact hal.1
  · exact hal.2.2
  · exact hal.2.1
  · exact hlk

/-- Concrete input for the C3 witness: a two-player goal, a two-player
substitution and a one-player card. -/
def c3Sample : List RawEventNode :=
  [⟨"goal", [("Alice", "a"), ("Bob", "b")], "10"⟩,
   ⟨"substitute_in", [("Carl", "c"), ("Dan", "d")], "60"⟩,
   ⟨"yellow_card", [("Eve", "e")], "70"⟩]

/-- C3 witness: the amended alignment statement applied at a concrete node
group, with the well-formedness hypothesis discharged by evaluation. -/
theorem prepareEvents_wellformed_spec_witness :
    (∀ nd ∈ c3Sample, nd.players.length = 1 ∨
      (nd.players.length = 2 ∧ (nd.kind = "goal" ∨ nd.kind = "substitute_in"))) ∧
    ((prepareEvents c3Sample).player_names.length =
        (prepareEvents c3Sample).event_types.length ∧
      (prepareEvents c3Sample).minutes.length =
        (prepareEvents c3Sample).event_types.length ∧
      (prepareEvents c3Sample).player_links.length =
        (prepareEvents c3Sample).event_types.length ∧
      ∀ pl ∈ (prepareEvents c3Sample).player_links, pl.length = 1) :=
  ⟨by decide, prepareEvents_wellformed_spec c3Sample (by decide)⟩

/-- `MatchStats` (models.py lines 17-23): three parallel lists of table
names, tab names and parsed tables. -/
structure MatchStats where
  table_names : List String
  tab_names : List String
  table : List Table
deriving DecidableEq, Repr

/-- One side's entry of `MatchData` (`home_info` / `away_info` dicts,
models.py lines 46-57).  The events cell is represented in its final
`PreparedEvents` shape; the initial pydantic defaults are four empty lists
either way. -/
structure SideInfo where
  squad : Features Table
  bench : Features Table
  events : PreparedEvents
  stats : MatchStats
deriving DecidableEq

/-- `MatchData` (models.py lines 44-124): the two per-side storage dicts plus
the two side-independent feature bags. -/
structure MatchData where
  home_info : SideInfo
  away_info : SideInfo
  debug_info : Features PyVal
  match_info : Features PyVal
deriving DecidableEq

/-- A fresh `MatchData()` (models.py lines 45-60): all storages empty. -/
def initMatchData : MatchData :=
  { home_info := ⟨⟨[], []⟩, ⟨[], []⟩, ⟨[], [], [], []⟩, ⟨[], [], []⟩⟩,
    away_info := ⟨⟨[], []⟩, ⟨[], []⟩, ⟨[], [], [], []⟩, ⟨[], [], []⟩⟩,
    debug_info := ⟨[], []⟩,
    match_info := ⟨[], []⟩ }

/-- Reading the `home_events` property (models.py lines 78-80) returns the
object stored in `home_info["events"]`. -/
def MatchData.home_events (m : MatchData) : PreparedEvents := m.home_info.events

/-- Reading the `away_events` property (models.py lines 110-112) returns
`home_info["events"]`, NOT `away_info["events"]` — the source getter is
aliased to the home side. -/
def MatchData.away_events (m : MatchData) : PreparedEvents := m.home_info.events

/-- The storage cell that an events property getter designates; in-place
mutation of the returned `MatchEvents` object writes to that cell. -/
inductive EvCell where
  | home
  | away
deriving DecidableEq

/-- The cell behind the `home_events` getter: `home_info["events"]`. -/
def MatchData.home_events_cell : EvCell := .home

/-- The cell behind the `away_events` getter: also `home_info["events"]`
(models.py lines 110-112). -/
def MatchData.away_events_cell : EvCell := .home

def writeEventsCell (m : MatchData) (c : EvCell) (v : PreparedEvents) :
    MatchData :=
  match c with
  | .home => { m with home_info := { m.home_info with events := v } }
  | .away => { m with away_info := { m.away_info with events := v } }

/-- The state of one `EventsGetter` (data_getters.py lines 112-124): the two
`find_all` results and the anomaly counter, plus the shared record. -/
structure EventsGetterSt where
  first_content : List RawEventNode
  second_content : List RawEventNode
  events_missing : Nat
  matchInfo : MatchData
deriving DecidableEq

/-- `EventsGetter._verify_event_names` (data_getters.py lines 137-143):
increments the counter when BOTH node groups are empty.  Note that
`get_events` never calls this method. -/
def verifyEventNames (g : EventsGetterSt) : EventsGetterSt :=
  if g.first_content.isEmpty && g.second_content.isEmpty then
    { g with events_missing := g.events_missing + 1 }
  else g

/-- `EventsGetter.get_events` (data_getters.py lines 145-154): runs
`_prepare_events` on the object returned by the `home_events` property, then
on the object returned by the `away_events` property.  Both getters return
`home_info["events"]`, so both writes land in the home cell. -/
def getEvents (g : EventsGetterSt) : EventsGetterSt :=
  let m := writeEventsCell g.matchInfo MatchData.home_events_cell
    (prepareEvents g.first_content)
  let m := writeEventsCell m MatchData.away_events_cell
    (prepareEvents g.second_content)
  { g with matchInfo := m }

/-- Concrete inputs for the C2 evaluation: a two-player goal node in the
home-side group and a one-player card node in the away-side group. -/
def c2HomeNode : RawEventNode := ⟨"goal", [("Alice", "a"), ("Bob", "b")], "10"⟩

def c2AwayNode : RawEventNode := ⟨"yellow_card", [("Carl", "c")], "55"⟩

def c2State : EventsGetterSt := ⟨[c2HomeNode], [c2AwayNode], 0, initMatchData⟩

/-- C2: the extractors do NOT mutate disjoint fields.  Because the
`away_events` property getter returns `home_info["events"]` (models.py lines
110-112), `get_events` writes the away-side extraction into the HOME storage,
overwriting the home-side events; `away_info["events"]` stays empty.  At this
concrete input the home cell ends up holding the away-group result (which
differs from the home-group result), so "home-side events are unchanged by
the away-side extraction" is false on the code. -/
theorem getEvents_away_alias_clobbers_home :
    (getEvents c2State).matchInfo.home_info.events = prepareEvents [c2AwayNode] ∧
    prepareEvents [c2AwayNode] ≠ prepareEvents [c2HomeNode] ∧
    (getEvents c2State).matchInfo.away_info.events = ⟨[], [], [], []⟩ ∧
    (getEvents c2State).matchInfo.away_events = prepareEvents [c2AwayNode] := by
  refine ⟨rfl, ?_, rfl, rfl⟩
  decide

/-- Concrete input for C8: neither raw node group is present. -/
def c8State : EventsGetterSt := ⟨[], [], 0, initMatchData⟩

/-- C8 counterexample: with both raw node groups missing, running
`get_events` leaves the events-missing anomaly counter at 0 — the claim says
the extraction increments it, but `get_events` never calls
`_verify_event_names`, the only place that increments the counter. -/
theorem getEvents_missing_counter_cex :
    (getEvents c8State).events_missing = 0 ∧
    ¬ (getEvents c8State).events_missing = 0 + 1 := by
  refine ⟨rfl, ?_⟩
  decide

/-- C8 (amended): when neither raw node group is found, `get_events` emits no
events for either side (the home cell is set to four empty lists and the
away cell keeps its prior state) and raises no exception, but the
events-missing counter is UNCHANGED — the check that would increment it
(`_verify_event_names`) is never invoked by `get_events`; calling that check
directly, as the claim intends, does increment the counter by one. -/
theorem getEvents_missing_groups_spec (g : EventsGetterSt)
    (h1 : g.first_content = []) (h2 : g.second_content = []) :
    (getEvents g).events_missing = g.events_missing ∧
    (getEvents g).matchInfo.home_info.events = ⟨[], [], [], []⟩ ∧
    (getEvents g).matchInfo.away_info.events = g.matchInfo.away_info.events ∧
    (verifyEventNames g).events_missing = g.events_missing + 1 := by
  refine ⟨rfl, ?_, rfl, ?_⟩
  · show prepareEvents g.second_content = ⟨[], [], [], []⟩
    rw [h2]
    rfl
  · unfold verifyEventNames
    rw [h1, h2]
    rfl

/-- C8 witness: the amended statement applied at the concrete state with
both node groups empty. -/
theorem getEvents_missing_groups_spec_witness :
    (c8State.first_content = []) ∧ (c8State.second_content = []) ∧
    ((getEvents c8State).events_missing = c8State.events_missing ∧
      (getEvents c8State).matchInfo.home_info.events = ⟨[], [], [], []⟩ ∧
      (getEvents c8State).matchInfo.away_info.events =
        c8State.matchInfo.away_info.events ∧
      (verifyEventNames c8State).events_missing = c8State.events_missing + 1) :=
  ⟨rfl, rfl, getEvents_missing_groups_spec c8State rfl rfl⟩

/-- One lineup `div` node together with its `pd.read_html` parse result (a
LIST of data frames, which is what `_home_squad` / `_away_squad` hold). -/
structure LineupNode where
  tables : List Table
deriving DecidableEq

/-- The state of one `SquadsGetter` (data_getters.py lines 259-265). -/
structure SquadsGetterSt where
  lineups : List LineupNode
  home_squad_tables : Option (List Table)
  away_squad_tables : Option (List Table)
  lineups_missing : Nat
  matchInfo : MatchData
deriving DecidableEq

/-- Python list indexing: `l[i]` raising `IndexError` out of range. -/
def pyGet (l : List α) (i : Nat) : Except String α :=
  match l[i]? with
  | some a => .ok a
  | none => .error "IndexError: list index out of range"

/-- `self.match_info.debug_info.append_feature(value, name)`. -/
def MatchData.appendDebug (m : MatchData) (v : PyVal) (name : String) :
    MatchData :=
  { m with debug_info := m.debug_info.append_feature v name }

/-- `SquadsGetter._lineups_exists` (data_getters.py lines 272-284): on an
empty lineup list, bump the counter and append a `lineups_missing = 1`
diagnostic; otherwise parse lineups `[0]` and `[1]` (an `IndexError` when only
one lineup node exists) and append `lineups_missing = 0`. -/
def lineupsExists (g : SquadsGetterSt) : Except String SquadsGetterSt :=
  if g.lineups.isEmpty then
    .ok { g with lineups_missing := g.lineups_missing + 1,
                 matchInfo := g.matchInfo.appendDebug (.nat 1) "lineups_missing" }
  else
    match pyGet g.lineups 0 with
    | .error e => .error e
    | .ok l0 =>
      match pyGet g.lineups 1 with
      | .error e => .error e
      | .ok l1 =>
        .ok { g with home_squad_tables := some l0.tables,
                     away_squad_tables := some l1.tables,
                     matchInfo := g.matchInfo.appendDebug (.nat 0) "lineups_missing" }

/-- The storage cell a `MatchData` squad/bench property getter designates. -/
inductive SquadCell where
  | homeSquad
  | homeBench
  | awaySquad
  | awayBench
deriving DecidableEq

/-- `getattr(self.match_info, name)` for the squad/bench properties: the cell
the GETTER returns.  The away-side getters return the HOME storage
(models.py lines 94-96 and 102-104); `add_features` then mutates that
returned object in place. -/
def matchDataFeatureRef (name : String) : Except String SquadCell :=
  if name == "home_squad" then .ok .homeSquad
  else if name == "home_bench" then .ok .homeBench
  else if name == "away_squad" then .ok .homeSquad
  else if name == "away_bench" then .ok .homeBench
  else .error ("AttributeError: " ++ name)

def writeSquadCell (m : MatchData) (c : SquadCell) (f : Features Table) :
    MatchData :=
  match c with
  | .homeSquad => { m with home_info := { m.home_info with squad := f } }
  | .homeBench => { m with home_info := { m.home_info with bench := f } }
  | .awaySquad => { m with away_info := { m.away_info with squad := f } }
  | .awayBench => { m with away_info := { m.away_info with bench := f } }

/-- `getattr(self, name)` on the `SquadsGetter` instance: only `_home_squad`
and `_away_squad` are ever assigned (`__init__` sets them to `None`,
`_lineups_exists` to parse results); any other name — in particular
`_home_bench` and `_away_bench` — raises `AttributeError`. -/
def squadsInstAttr (g : SquadsGetterSt) (name : String) :
    Except String (Option (List Table)) :=
  if name == "_home_squad" then .ok g.home_squad_tables
  else if name == "_away_squad" then .ok g.away_squad_tables
  else .error ("AttributeError: " ++ name)

/-- `SquadsGetter._separate_squad` (data_getters.py lines 294-310).  The
squad statement slices `getattr(self, "_" + team_type + "_squad")[:11]` (the
LIST of parsed tables, not its rows) and replaces the squad cell; the bench
statement then evaluates `getattr(self, "_" + team_type + "_bench")`, an
attribute that never exists.  Slicing `None` models the `TypeError` raised
when `_lineups_exists` has not populated the attribute. -/
def separateSquad (g : SquadsGetterSt) (team_type : String) :
    Except String SquadsGetterSt :=
  match matchDataFeatureRef (team_type ++ "_squad") with
  | .error e => .error e
  | .ok squadCell =>
    match squadsInstAttr g ("_" ++ team_type ++ "_squad") with
    | .error e => .error e
    | .ok none => .error "TypeError: NoneType is not subscriptable"
    | .ok (some tbls) =>
      let g1 := { g with matchInfo := (writeSquadCell g.matchInfo squadCell
        (Features.mk (tbls.take 11) ["shirt_number", "player"])) }
      match matchDataFeatureRef (team_type ++ "_bench") with
      | .error e => .error e
      | .ok benchCell =>
        match squadsInstAttr g1 ("_" ++ team_type ++ "_bench") with
        | .error e => .error e
        | .ok none => .error "TypeError: NoneType is not subscriptable"
        | .ok (some btbls) =>
          .ok { g1 with matchInfo := (writeSquadCell g1.matchInfo benchCell
            (Features.mk (btbls.drop 12) ["shirt_number", "player"])) }

/-- `SquadsGetter.get_teams_info` (data_getters.py lines 286-292): check the
lineups, then — when the just-appended `lineups_missing` diagnostic is falsy —
separate both sides. -/
def getTeamsInfo (g : SquadsGetterSt) : Except String SquadsGetterSt :=
  match lineupsExists g with
  | .error e => .error e
  | .ok g1 =>
    match g1.matchInfo.debug_info.getItem "lineups_missing" with
    | none => .error "ValueError: name is not in list"
    | some v =>
      if v.falsy then
        match separateSquad g1 "home" with
        | .error e => .error e
        | .ok g2 => separateSquad g2 "away"
      else .ok g1

/-- A 23-row parsed lineup table for the C4 evaluation. -/
def c4Table : Table := List.replicate 23 ["1", "Player"]

def c4State : SquadsGetterSt :=
  ⟨[⟨[c4Table]⟩, ⟨[c4Table]⟩], none, none, 0, initMatchData⟩

/-- C4: with two lineup nodes present, each parsing to one 23-row table,
`get_teams_info` does NOT partition the rows into squad (0-10) and bench
(12-22); it raises `AttributeError` because `_separate_squad` reads the
never-assigned instance attribute `_home_bench` (and its squad statement had
sliced the list of parsed tables, not the 23 rows). -/
theorem getTeamsInfo_lineups_present_raises :
    getTeamsInfo c4State = .error "AttributeError: _home_bench" := by
  rfl

theorem getItem_append_fresh (f : Features α) (v : α) (name : String)
    (hfresh : name ∉ f.columns) (hlen : f.data.length = f.columns.length) :
    (f.append_feature v name).getItem name = some v := by
  unfold Features.getItem Features.append_feature
  show (match listIndex (f.columns ++ name :: []) name with
    | none => none
    | some i => (f.data ++ [v])[i]?) = some v
  rw [listIndex_append_first f.columns [] name hfresh]
  show (f.data ++ v :: [])[f.columns.length]? = some v
  rw [← hlen]
  exact getElem?_append_cons f.data [] v

theorem getTeamsInfo_of_truthy (g g1 : SquadsGetterSt)
    (hle : lineupsExists g = .ok g1)
    (hv : g1.matchInfo.debug_info.getItem "lineups_missing" = some (.nat 1)) :
    getTeamsInfo g = .ok g1 := by
  unfold getTeamsInfo
  rw [hle]
  show (match g1.matchInfo.debug_info.getItem "lineups_missing" with
    | none => (Except.error "ValueError: name is not in list"
        : Except String SquadsGetterSt)
    | some v =>
      if v.falsy = true then
        match separateSquad g1 "home" with
        | Except.error e => Except.error e
        | Except.ok g2 => separateSquad g2 "away"
      else Except.ok g1) = Except.ok g1
  rw [hv]
  rfl

/-- C7: on a document with zero lineup nodes (and a record whose diagnostics
ledger does not yet carry a `lineups_missing` entry), `get_teams_info`
appends a `lineups_missing = 1` diagnostic, leaves both sides' squad and
bench (indeed the whole record apart from the ledger) at their prior state,
and raises no exception. -/
theorem getTeamsInfo_missing_lineups (g : SquadsGetterSt)
    (h0 : g.lineups = [])
    (h1 : "lineups_missing" ∉ g.matchInfo.debug_info.columns)
    (h2 : g.matchInfo.debug_info.data.length =
      g.matchInfo.debug_info.columns.length) :
    getTeamsInfo g = .ok { g with
      lineups_missing := g.lineups_missing + 1,
      matchInfo := g.matchInfo.appendDebug (.nat 1) "lineups_missing" } := by
  have hget : (g.matchInfo.appendDebug (PyVal.nat 1)
      "lineups_missing").debug_info.getItem "lineups_missing" =
      some (.nat 1) :=
    getItem_append_fresh g.matchInfo.debug_info (.nat 1) "lineups_missing" h1 h2
  have hle : lineupsExists g = .ok { g with
      lineups_missing := g.lineups_missing + 1,
      matchInfo := g.matchInfo.appendDebug (.nat 1) "lineups_missing" } := by
    unfold lineupsExists
    rw [h0]
    rfl
  exact getTeamsInfo_of_truthy g _ hle hget

/-- Fresh `SquadsGetter` state over a document with no lineup nodes. -/
def c7State : SquadsGetterSt := ⟨[], none, none, 0, initMatchData⟩

/-- C7 witness: the missing-lineups behaviour evaluated on a fresh state. -/
theorem getTeamsInfo_missing_lineups_witness :
    (c7State.lineups = []) ∧
    ("lineups_missing" ∉ c7State.matchInfo.debug_info.columns) ∧
    (c7State.matchInfo.debug_info.data.length =
      c7State.matchInfo.debug_info.columns.length) ∧
    getTeamsInfo c7State = .ok { c7State with
      lineups_missing := c7State.lineups_missing + 1,
      matchInfo := c7State.matchInfo.appendDebug (.nat 1) "lineups_missing" } :=
  ⟨rfl, by decide, rfl, getTeamsInfo_missing_lineups c7State rfl (by decide) rfl⟩

/-- One `table_container` div together with the table `_clean_table`
(data_getters.py lines 453-458) parses out of it. -/
structure TableNode where
  cleaned : Table
deriving DecidableEq

/-- The state of one `StatsGetter` after the `_exists` checks
(data_getters.py lines 313-325): the table containers, the (cleaned) heading
texts, the (cleaned) tab-label texts, and the shared record.  Heading and tab
nodes are represented by their text, the only feature the code reads. -/
structure StatsGetterSt where
  tables : List TableNode
  table_names : List String
  tab_names : List String
  matchInfo : MatchData
deriving DecidableEq

/-- Python `enumerate` starting at `k`. -/
def pyEnumFrom : Nat → List α → List (Nat × α)
  | _, [] => []
  | k, a :: t => (k, a) :: pyEnumFrom (k + 1) t

/-- Python `enumerate(l)`. -/
def pyEnum (l : List α) : List (Nat × α) := pyEnumFrom 0 l

/-- The loop of `StatsGetter.convert_tables` (data_getters.py lines 445-450):
for each `(idx, table)` of `enumerate(self._tables)` append
`_clean_table(self._tables[idx])` and `self._table_names[idx]`, and — only
when the tab-label list is non-empty — `self._tab_names[idx]` (an
`IndexError` when that list is shorter than the table list). -/
def convertLoop (s : StatsGetterSt) : List (Nat × TableNode) → MatchStats →
    Except String MatchStats
  | [], acc => .ok acc
  | (idx, _) :: rest, acc =>
    match pyGet s.tables idx with
    | .error e => .error e
    | .ok tnode =>
      match pyGet s.table_names idx with
      | .error e => .error e
      | .ok nm =>
        let acc1 := { acc with table := acc.table ++ [tnode.cleaned],
                               table_names := acc.table_names ++ [nm] }
        if s.tab_names.isEmpty then convertLoop s rest acc1
        else
          match pyGet s.tab_names idx with
          | .error e => .error e
          | .ok tb =>
            convertLoop s rest { acc1 with tab_names := acc1.tab_names ++ [tb] }

/-- `setattr(self.match_info, team_type + "_stats", value)` (data_getters.py
line 451): the stats property SETTERS write their own side (models.py lines
90-92 and 122-124); any other attribute name would create an unrelated
instance attribute that nothing reads. -/
def setStatsAttr (m : MatchData) (name : String) (v : MatchStats) : MatchData :=
  if name == "home_stats" then
    { m with home_info := { m.home_info with stats := v } }
  else if name == "away_stats" then
    { m with away_info := { m.away_info with stats := v } }
  else m

/-- `StatsGetter.convert_tables` (data_getters.py lines 435-451). -/
def convertTables (s : StatsGetterSt) (team_type : String) :
    Except String StatsGetterSt :=
  match convertLoop s (pyEnum s.tables) ⟨[], [], []⟩ with
  | .error e => .error e
  | .ok ms =>
    .ok { s with matchInfo := setStatsAttr s.matchInfo (team_type ++ "_stats") ms }

/-- `StatsGetter._verify_components_length` (data_getters.py lines 413-433):
convert and append a `stats_components_length_miss = 0` diagnostic when the
table count equals the heading count, otherwise only append the mismatch
diagnostic (the prints are ignored). -/
def verifyComponentsLength (s : StatsGetterSt) (team_type : String) :
    Except String StatsGetterSt :=
  if s.tables.length == s.table_names.length then
    match convertTables s team_type with
    | .error e => .error e
    | .ok s1 =>
      .ok { s1 with matchInfo :=
        (s1.matchInfo.appendDebug (.nat 0) "stats_components_length_miss") }
  else
    .ok { s with matchInfo :=
      (s.matchInfo.appendDebug (.nat 1) "stats_components_length_miss") }

/-- The ascending index list `[k, k+1, ..., k+n-1]`. -/
def idxRange : Nat → Nat → List Nat
  | _, 0 => []
  | k, n + 1 => k :: idxRange (k + 1) n

theorem pyGet_ok (l : List α) (i : Nat) (d : α) (h : i < l.length) :
    pyGet l i = .ok (l.getD i d) := by
  unfold pyGet
  rw [List.getElem?_eq_getElem h]
  show Except.ok (l[i]) = Except.ok (l.getD i d)
  rw [List.getD_eq_getElem _ _ h]

theorem idxRange_map_getD (l : List α) (d : α) :
    ∀ (n k : Nat), k + n ≤ l.length →
      (idxRange k n).map (fun i => l.getD i d) = (l.drop k).take n := by
  intro n
  induction n with
  | zero => intro k _; simp [idxRange]
  | succ m ih =>
    intro k hk
    have hklt : k < l.length := by omega
    have hdrop : l.drop k = l.getD k d :: l.drop (k + 1) := by
      rw [List.getD_eq_getElem _ _ hklt]
      exact List.drop_eq_getElem_cons hklt
    show l.getD k d :: (idxRange (k + 1) m).map (fun i => l.getD i d)
      = (l.drop k).take (m + 1)
    rw [ih (k + 1) (by omega), hdrop, List.take_succ_cons]

theorem convertLoop_cons_noTab (s : StatsGetterSt) (idx : Nat) (a : TableNode)
    (rest : List (Nat × TableNode)) (acc : MatchStats) (t : TableNode)
    (nm : String)
    (ht : pyGet s.tables idx = .ok t) (hn : pyGet s.table_names idx = .ok nm)
    (htab : s.tab_names.isEmpty = true) :
    convertLoop s ((idx, a) :: rest) acc =
      convertLoop s rest
        ⟨acc.table_names ++ [nm], acc.tab_names, acc.table ++ [t.cleaned]⟩ := by
  simp only [convertLoop, ht, hn, htab, if_true]

theorem convertLoop_cons_tab (s : StatsGetterSt) (idx : Nat) (a : TableNode)
    (rest : List (Nat × TableNode)) (acc : MatchStats) (t : TableNode)
    (nm tb : String)
    (ht : pyGet s.tables idx = .ok t) (hn : pyGet s.table_names idx = .ok nm)
    (htab : s.tab_names.isEmpty = false)
    (htb : pyGet s.tab_names idx = .ok tb) :
    convertLoop s ((idx, a) :: rest) acc =
      convertLoop s rest
        ⟨acc.table_names ++ [nm], acc.tab_names ++ [tb],
          acc.table ++ [t.cleaned]⟩ := by
  simp only [convertLoop, ht, hn, htab, htb, Bool.false_eq_true, if_false]

theorem convertLoop_spec (s : StatsGetterSt) (l : List TableNode) :
    ∀ (k : Nat) (acc : MatchStats),
      k + l.length ≤ s.tables.length →
      k + l.length ≤ s.table_names.length →
      (s.tab_names = [] ∨ k + l.length ≤ s.tab_names.length) →
      convertLoop s (pyEnumFrom k l) acc = .ok
        { table_names := acc.table_names ++
            ((idxRange k l.length).map (fun i => s.table_names.getD i "")),
          tab_names := acc.tab_names ++
            (if s.tab_names.isEmpty then []
             else (idxRange k l.length).map (fun i => s.tab_names.getD i "")),
          table := acc.table ++
            ((idxRange k l.length).map (fun i => (s.tables.getD i ⟨[]⟩).cleaned)) } := by
  induction l with
  | nil =>
    intro k acc _ _ _
    show Except.ok acc = _
    simp [idxRange]
  | cons a rest ih =>
    intro k acc h1 h2 h3
    have h1r : (k + 1) + rest.length ≤ s.tables.length := by
      simp only [List.length_cons] at h1; omega
    have h2r : (k + 1) + rest.length ≤ s.table_names.length := by
      simp only [List.length_cons] at h2; omega
    have hk1 : k < s.tables.length := by omega
    have hk2 : k < s.table_names.length := by omega
    have henum : pyEnumFrom k (a :: rest) = (k, a) :: pyEnumFrom (k + 1) rest :=
      rfl
    rw [henum]
    by_cases htab : s.tab_names.isEmpty = true
    · rw [convertLoop_cons_noTab s k a _ acc _ _
        (pyGet_ok s.tables k ⟨[]⟩ hk1) (pyGet_ok s.table_names k "" hk2) htab]
      rw [ih (k + 1) _ h1r h2r (Or.inl (List.isEmpty_iff.mp htab))]
      rw [if_pos htab, if_pos htab]
      show Except.ok _ = Except.ok _
      congr 2
      · show (acc.table_names ++ [s.table_names.getD k ""]) ++ _ = _
        rw [← List.append_cons]
        rfl
      · show (acc.table ++ [(s.tables.getD k ⟨[]⟩).cleaned]) ++ _ = _
        rw [← List.append_cons]
        rfl
    · have htabf : s.tab_names.isEmpty = false := by
        cases hb : s.tab_names.isEmpty
        · rfl
        · exact absurd hb htab
      have hne : s.tab_names ≠ [] := fun hh => htab (by rw [hh]; rfl)
      have h3r : s.tab_names = [] ∨ (k + 1) + rest.length ≤ s.tab_names.length := by
        rcases h3 with hempty | hlen
        · exact absurd hempty hne
        · refine Or.inr ?_
          simp only [List.length_cons] at hlen
          omega
      have hk3 : k < s.tab_names.length := by
        rcases h3 with hempty | hlen
        · exact absurd hempty hne
        · simp only [List.length_cons] at hlen
          omega
      rw [convertLoop_cons_tab s k a _ acc _ _ _
        (pyGet_ok s.tables k ⟨[]⟩ hk1) (pyGet_ok s.table_names k "" hk2) htabf
        (pyGet_ok s.tab_names k "" hk3)]
      rw [ih (k + 1) _ h1r h2r h3r]
      rw [if_neg htab, if_neg htab]
      show Except.ok _ = Except.ok _
      congr 2
      · show (acc.table_names ++ [s.table_names.getD k ""]) ++ _ = _
        rw [← List.append_cons]
        rfl
      · show (acc.tab_names ++ [s.tab_names.getD k ""]) ++ _ = _
        rw [← List.append_cons]
        rfl
      · show (acc.table ++ [(s.tables.getD k ⟨[]⟩).cleaned]) ++ _ = _
        rw [← List.append_cons]
        rfl

/-- The result of a successful `convert_tables`: one triple per table
container, positionally bound, replacing the designated side's stats. -/
theorem convertTables_spec (s : StatsGetterSt) (team_type : String)
    (h1 : s.tables.length ≤ s.table_names.length)
    (h2 : s.tab_names = [] ∨ s.tables.length ≤ s.tab_names.length) :
    convertTables s team_type = .ok { s with
      matchInfo := setStatsAttr s.matchInfo (team_type ++ "_stats")
        ⟨s.table_names.take s.tables.length,
         (if s.tab_names.isEmpty then []
          else s.tab_names.take s.tables.length),
         s.tables.map (fun tn => tn.cleaned)⟩ } := by
  have e1 : [] ++ (idxRange 0 s.tables.length).map
        (fun i => s.table_names.getD i "")
      = s.table_names.take s.tables.length := by
    rw [List.nil_append, idxRange_map_getD s.table_names "" s.tables.length 0
      (by omega), List.drop_zero]
  have e2 : [] ++ (if s.tab_names.isEmpty then []
        else (idxRange 0 s.tables.length).map (fun i => s.tab_names.getD i ""))
      = (if s.tab_names.isEmpty then []
         else s.tab_names.take s.tables.length) := by
    rw [List.nil_append]
    by_cases htab : s.tab_names.isEmpty = true
    · rw [if_pos htab, if_pos htab]
    · have hne : s.tab_names ≠ [] := fun hh => htab (by rw [hh]; rfl)
      have hlen : s.tables.length ≤ s.tab_names.length := by
        rcases h2 with he | hl
        · exact absurd he hne
        · exact hl
      rw [if_neg htab, if_neg htab, idxRange_map_getD s.tab_names ""
        s.tables.length 0 (by omega), List.drop_zero]
  have e3 : [] ++ (idxRange 0 s.tables.length).map
        (fun i => (s.tables.getD i ⟨[]⟩).cleaned)
      = s.tables.map (fun tn => tn.cleaned) := by
    rw [List.nil_append]
    have hcomp : (fun i => (s.tables.getD i (⟨[]⟩ : TableNode)).cleaned)
        = (fun tn => tn.cleaned) ∘ (fun i => s.tables.getD i ⟨[]⟩) := rfl
    rw [hcomp, ← List.map_map, idxRange_map_getD s.tables ⟨[]⟩
      s.tables.length 0 (by omega), List.drop_zero, List.take_length]
  have hms : (MatchStats.mk
        ([] ++ (idxRange 0 s.tables.length).map
          (fun i => s.table_names.getD i ""))
        ([] ++ (if s.tab_names.isEmpty then []
          else (idxRange 0 s.tables.length).map (fun i => s.tab_names.getD i "")))
        ([] ++ (idxRange 0 s.tables.length).map
          (fun i => (s.tables.getD i ⟨[]⟩).cleaned)))
      = MatchStats.mk (s.table_names.take s.tables.length)
        (if s.tab_names.isEmpty then [] else s.tab_names.take s.tables.length)
        (s.tables.map (fun tn => tn.cleaned)) := by
    rw [e1, e2, e3]
  unfold convertTables pyEnum
  rw [convertLoop_spec s s.tables 0 ⟨[], [], []⟩ (by omega) (by omega)
    (by rcases h2 with he | hl
        · exact Or.inl he
        · exact Or.inr (by omega))]
  exact congrArg (fun ms : MatchStats =>
    (Except.ok { s with matchInfo :=
      (setStatsAttr s.matchInfo (team_type ++ "_stats") ms) }
      : Except String StatsGetterSt)) hms

/-- Concrete C5 counterexample state: 3 table containers, 3 filtered
headings, but a single tab label. -/
def c5CexState : StatsGetterSt :=
  ⟨[⟨[]⟩, ⟨[]⟩, ⟨[]⟩], ["Passing Stats", "Defense Stats", "Shots"], ["All"],
    initMatchData⟩

/-- C5 counterexample: with equal counts (3 tables, 3 headings) but a
non-empty one-element tab-label list, `_verify_components_length` raises an
`IndexError` inside `convert_tables` instead of binding one triple per table
and appending a `stats_components_length_miss = 0` diagnostic, so the claim's
equal-count half is false as stated. -/
theorem verifyComponentsLength_equal_counts_cex :
    verifyComponentsLength c5CexState "home" =
      .error "IndexError: list index out of range" := by
  rfl

/-- C5 (amended): when the table-container count equals the filtered-heading
count AND the tab-label list is empty or covers every table index, conversion
binds one (name, tab label when present, table) triple per table on the
designated side and then appends `stats_components_length_miss = 0`; when the
counts differ, no stats are bound (the record keeps its prior stats) and a
`stats_components_length_miss = 1` diagnostic is appended. -/
theorem verifyComponentsLength_spec (s : StatsGetterSt) (team_type : String) :
    (s.tables.length = s.table_names.length →
      (s.tab_names = [] ∨ s.tables.length ≤ s.tab_names.length) →
      verifyComponentsLength s team_type = .ok { s with
        matchInfo := ((setStatsAttr s.matchInfo (team_type ++ "_stats")
          ⟨s.table_names.take s.tables.length,
           (if s.tab_names.isEmpty then []
            else s.tab_names.take s.tables.length),
           s.tables.map (fun tn => tn.cleaned)⟩).appendDebug (.nat 0)
          "stats_components_length_miss") }) ∧
    (s.tables.length ≠ s.table_names.length →
      verifyComponentsLength s team_type = .ok { s with
        matchInfo :=
          (s.matchInfo.appendDebug (.nat 1) "stats_components_length_miss") }) := by
  constructor
  · intro h1 h2
    have hbeq : (s.tables.length == s.table_names.length) = true := by
      simp [h1]
    unfold verifyComponentsLength
    rw [hbeq, if_pos rfl, convertTables_spec s team_type (le_of_eq h1) h2]
  · intro h1
    have hbeq : (s.tables.length == s.table_names.length) = false := by
      simp [h1]
    unfold verifyComponentsLength
    rw [hbeq]
    rfl

/-- Concrete success state for the C5 witness: two tables, two headings, no
tab labels. -/
def c5WitState : StatsGetterSt :=
  ⟨[⟨[["5", "2"]]⟩, ⟨[["7", "1"]]⟩], ["Passing Stats", "Shots"], [],
    initMatchData⟩

/-- Concrete mismatch state for the C5 witness: one table, no headings. -/
def c5MissState : StatsGetterSt := ⟨[⟨[]⟩], [], ["All"], initMatchData⟩

/-- C5 witness: both branches of the amended reconciliation statement
evaluated at concrete states. -/
theorem verifyComponentsLength_spec_witness :
    (c5WitState.tables.length = c5WitState.table_names.length ∧
      (c5WitState.tab_names = [] ∨
        c5WitState.tables.length ≤ c5WitState.tab_names.length) ∧
      verifyComponentsLength c5WitState "home" = .ok { c5WitState with
        matchInfo := ((setStatsAttr c5WitState.matchInfo ("home" ++ "_stats")
          ⟨c5WitState.table_names.take c5WitState.tables.length,
           (if c5WitState.tab_names.isEmpty then []
            else c5WitState.tab_names.take c5WitState.tables.length),
           c5WitState.tables.map (fun tn => tn.cleaned)⟩).appendDebug (.nat 0)
          "stats_components_length_miss") }) ∧
    (c5MissState.tables.length ≠ c5MissState.table_names.length ∧
      verifyComponentsLength c5MissState "home" = .ok { c5MissState with
        matchInfo := (c5MissState.matchInfo.appendDebug (.nat 1)
          "stats_components_length_miss") }) :=
  ⟨⟨rfl, Or.inl rfl,
    (verifyComponentsLength_spec c5WitState "home").1 rfl (Or.inl rfl)⟩,
   ⟨by decide,
    (verifyComponentsLength_spec c5MissState "home").2 (by decide)⟩⟩

/-- Concrete C6 counterexample state: two tables, two headings (so the counts
match), but only one tab label. -/
def c6CexState : StatsGetterSt :=
  ⟨[⟨[]⟩, ⟨[]⟩], ["Keeper Stats", "Shots"], ["All Competitions"],
    initMatchData⟩

/-- C6 counterexample: the table count equals the filtered-heading count, yet
`convert_tables` raises an `IndexError` at the second table because the
non-empty tab-label list is shorter than the table list — a tab-label
mismatch DOES block conversion, so the claim is false as stated. -/
theorem convertTables_short_tabs_cex :
    convertTables c6CexState "home" =
      .error "IndexError: list index out of range" := by
  rfl

/-- C6 (amended): whenever the table-container count equals the
filtered-heading count and the tab-label list is empty or at least as long as
the table list, `convert_tables` runs to completion without raising; a
non-empty tab-label list shorter than the table list instead raises an
`IndexError` (see the counterexample). -/
theorem convertTables_total_spec (s : StatsGetterSt) (team_type : String)
    (h1 : s.tables.length = s.table_names.length)
    (h2 : s.tab_names = [] ∨ s.tables.length ≤ s.tab_names.length) :
    ∃ s1, convertTables s team_type = .ok s1 :=
  ⟨_, convertTables_spec s team_type (le_of_eq h1) h2⟩

/-- Concrete state for the C6 witness: one table, one heading, two tab
labels (a non-trivial tab-label list that covers every table). -/
def c6WitState : StatsGetterSt :=
  ⟨[⟨[["9"]]⟩], ["Shots"], ["All", "Extra"], initMatchData⟩

/-- C6 witness: the amended totality statement evaluated at a concrete state
with a non-empty tab-label list. -/
theorem convertTables_total_spec_witness :
    (c6WitState.tables.length = c6WitState.table_names.length) ∧
    (c6WitState.tab_names = [] ∨
      c6WitState.tables.length ≤ c6WitState.tab_names.length) ∧
    ∃ s1, convertTables c6WitState "home" = .ok s1 :=
  ⟨rfl, Or.inr (by decide),
    convertTables_total_spec c6WitState "home" rfl (Or.inr (by decide))⟩

/-- Booleans leading-match test on character lists: `leadB n h` holds when
`n` is an initial segment of `h`. -/
def leadB : List Char → List Char → Bool
  | [], _ => true
  | _ :: _, [] => false
  | a :: n, b :: h => a == b && leadB n h

/-- Python's substring test `needle in hay` on the underlying character
lists: `needle` occurs contiguously somewhere in `hay`. -/
def inB : List Char → List Char → Bool
  | n, [] => n.isEmpty
  | n, c :: t => leadB n (c :: t) || inB n t

/-- Python `needle in hay` for strings. -/
def strIn (needle hay : String) : Bool := inB needle.data hay.data

/-- `StatsGetter._clean_table_names` (data_getters.py lines 392-399): keep
the heading texts that contain `"Stats"` or `"Shots"` and do not contain
`"Team Stats"` (headings are represented by their text, the only feature the
comprehension reads). -/
def cleanTableNames (table_names : List String) : List String :=
  table_names.filter
    (fun t => (strIn "Stats" t || strIn "Shots" t) && !(strIn "Team Stats" t))

theorem leadB_iff : ∀ (n h : List Char), leadB n h = true ↔ ∃ r, h = n ++ r
  | [], h => by simp [leadB]
  | a :: n, [] => by
    simp only [leadB]
    constructor
    · intro hh
      exact Bool.noConfusion hh
    · rintro ⟨r, heq⟩
      exact List.noConfusion heq
  | a :: n, b :: h => by
    simp only [leadB, Bool.and_eq_true, beq_iff_eq]
    constructor
    · rintro ⟨rfl, hl⟩
      rcases (leadB_iff n h).mp hl with ⟨r, rfl⟩
      exact ⟨r, rfl⟩
    · rintro ⟨r, heq⟩
      injection heq with hb ht
      exact ⟨hb.symm, (leadB_iff n h).mpr ⟨r, ht⟩⟩

theorem inB_iff : ∀ (n h : List Char), inB n h = true ↔ ∃ l r, h = l ++ n ++ r
  | n, [] => by
    simp only [inB, List.isEmpty_iff]
    constructor
    · rintro rfl
      exact ⟨[], [], rfl⟩
    · rintro ⟨l, r, heq⟩
      cases l with
      | cons x xs => exact List.noConfusion heq
      | nil =>
        cases n with
        | nil => rfl
        | cons y ys => exact List.noConfusion heq
  | n, c :: t => by
    simp only [inB, Bool.or_eq_true]
    rw [leadB_iff, inB_iff n t]
    constructor
    · rintro (⟨r, heq⟩ | ⟨l, r, rfl⟩)
      · exact ⟨[], r, by simpa using heq⟩
      · exact ⟨c :: l, r, rfl⟩
    · rintro ⟨l, r, heq⟩
      cases l with
      | nil => exact Or.inl ⟨r, by simpa using heq⟩
      | cons x xs =>
        injection heq with hb ht
        exact Or.inr ⟨xs, r, ht⟩

theorem strIn_team_stats_stats (t : String)
    (h : strIn "Team Stats" t = true) : strIn "Stats" t = true := by
  unfold strIn at h ⊢
  rcases (inB_iff _ _).mp h with ⟨l, r, heq⟩
  apply (inB_iff _ _).mpr
  refine ⟨l ++ ("Team ".data), r, ?_⟩
  have hsplit : ("Team Stats".data : List Char) =
      ("Team ".data : List Char) ++ ("Stats".data : List Char) := by decide
  rw [heq, hsplit]
  simp [List.append_assoc]

/-- C9: the heading filter keeps exactly the heading texts that contain
`"Stats"` or `"Shots"` and do not contain `"Team Stats"`; a heading
containing `"Team Stats"` is always excluded — even though such a heading
necessarily also contains `"Stats"` — and the heading `"Shots"` alone is
kept. -/
theorem cleanTableNames_spec (hs : List String) (t : String) :
    (t ∈ cleanTableNames hs ↔
      t ∈ hs ∧ ((strIn "Stats" t = true ∨ strIn "Shots" t = true) ∧
        strIn "Team Stats" t = false)) ∧
    (strIn "Team Stats" t = true → strIn "Stats" t = true) ∧
    (strIn "Team Stats" t = true → t ∉ cleanTableNames hs) ∧
    cleanTableNames ["Shots"] = ["Shots"] := by
  have hmem : t ∈ cleanTableNames hs ↔
      t ∈ hs ∧ ((strIn "Stats" t = true ∨ strIn "Shots" t = true) ∧
        strIn "Team Stats" t = false) := by
    unfold cleanTableNames
    rw [List.mem_filter]
    simp [Bool.and_eq_true, Bool.or_eq_true]
  refine ⟨hmem, strIn_team_stats_stats t, ?_, ?_⟩
  · intro hts hin
    rcases hmem.mp hin with ⟨_, _, hfalse⟩
    rw [hts] at hfalse
    exact Bool.noConfusion hfalse
  · rfl

/-- C9 witness: the filter specification evaluated at a concrete heading
list containing a `"Team Stats"` heading, a kept stats heading and a kept
shots heading. -/
theorem cleanTableNames_spec_witness :
    (("My Team Stats" ∈
        cleanTableNames ["My Team Stats", "Passing Stats", "Shots"] ↔
      "My Team Stats" ∈ (["My Team Stats", "Passing Stats", "Shots"]
          : List String) ∧
        ((strIn "Stats" "My Team Stats" = true ∨
          strIn "Shots" "My Team Stats" = true) ∧
          strIn "Team Stats" "My Team Stats" = false)) ∧
      (strIn "Team Stats" "My Team Stats" = true →
        strIn "Stats" "My Team Stats" = true) ∧
      (strIn "Team Stats" "My Team Stats" = true →
        "My Team Stats" ∉
          cleanTableNames ["My Team Stats", "Passing Stats", "Shots"]) ∧
      cleanTableNames ["Shots"] = ["Shots"]) ∧
    strIn "Team Stats" "My Team Stats" = true ∧
    cleanTableNames ["My Team Stats", "Passing Stats", "Shots"]
      = ["Passing Stats", "Shots"] :=
  ⟨cleanTableNames_spec ["My Team Stats", "Passing Stats", "Shots"]
      "My Team Stats",
    by decide, by decide⟩

end FootballData
